/-
  Verification of the cover-tree dual-tree traversal core of mlpack
  (src/mlpack/core/tree/cover_tree/dual_tree_traverser_impl.hpp) and the
  RangeSearch orchestrator (src/mlpack/methods/range_search/range_search_impl.hpp).

  The C++ code is shallowly embedded:
  - a cover-tree node is an inductive with a point index, an integer scale
    (INT_MIN is the leaf sentinel) and a list of children (child 0 is the
    self-child);
  - the double values handled by the traversal are only ever produced by the
    pluggable rule and compared against DBL_MAX, so they are embedded as an
    integer value or the distinguished dblMax sentinel;
  - the scoring policy (RuleType) is an abstract record of three functions
    BaseCase, Score and Rescore threading an arbitrary result state;
  - the traversal state additionally carries the prune counter and a ghost
    log of every rule invocation, used to observe call sequences;
  - std::map<int, std::vector<MapEntry>> is embedded as a sorted association
    list; the reverse-iterator walk of PruneMapForSelfChild, which erases
    buckets while iterating, is embedded by tracking the key of the
    iterator's base element, exactly mirroring std::reverse_iterator
    semantics (dereference is the predecessor of the base element);
  - undefined behaviour (dereferencing rbegin() of an empty map, decrementing
    begin(), Child(0) of a childless node) and fuel exhaustion surface as
    errors of an Except monad.
-/
import Mathlib

namespace MlpackCover

/-- The value INT_MIN, the sentinel scale of leaf cover-tree nodes. -/
def INT_MIN : Int := -2147483648

/-- A double as used by the traversal: either an ordinary (here integer-valued)
number or the reserved DBL_MAX prune sentinel. The traversal itself only ever
compares scores for order (when sorting a scale bucket) and against DBL_MAX. -/
inductive DVal : Type where
  | fin (v : Int) : DVal
  | dblMax : DVal
deriving DecidableEq, Repr

/-- Strict order on embedded doubles; DBL_MAX is the largest double. -/
def DVal.lt : DVal → DVal → Bool
  | .fin a, .fin b => a < b
  | .fin _, .dblMax => true
  | .dblMax, _ => false

/-- A cover-tree node: representative point index, scale, children
(child 0 is the self-child). Nodes are read-only during traversal, so frames
can hold them by value where the C++ holds a pointer. -/
inductive CoverNode : Type where
  | node (point : Nat) (scale : Int) (children : List CoverNode) : CoverNode

/-- The representative point index of a node (CoverTree::Point). -/
def CoverNode.point : CoverNode → Nat
  | .node p _ _ => p

/-- The scale of a node (CoverTree::Scale); INT_MIN for leaves. -/
def CoverNode.scale : CoverNode → Int
  | .node _ s _ => s

/-- The children of a node (CoverTree::Child / NumChildren). -/
def CoverNode.children : CoverNode → List CoverNode
  | .node _ _ cs => cs

/-- The object placed in the map for tree traversal (DualCoverTreeMapEntry). -/
structure DualCoverTreeMapEntry : Type where
  /-- The node this entry refers to. -/
  referenceNode : CoverNode
  /-- The score of the node. -/
  score : DVal
  /-- The index of the reference node used for the base case evaluation. -/
  referenceIndex : Nat
  /-- The index of the query node used for the base case evaluation. -/
  queryIndex : Nat
  /-- The base case evaluation. -/
  baseCase : DVal

/-- The reference frontier: std::map from scale to the vector of entries at
that scale, embedded as an association list sorted by ascending key. -/
abbrev RefMap : Type := List (Int × List DualCoverTreeMapEntry)

/-- Lookup of the bucket stored at a key (first occurrence). -/
def mapFind? : RefMap → Int → Option (List DualCoverTreeMapEntry)
  | [], _ => none
  | (k', v') :: rest, k => if k = k' then some v' else mapFind? rest k

/-- Assign a bucket at a key (std::map operator[] followed by assignment):
replaces the bucket if the key is present, otherwise inserts it in key order. -/
def mapSet : RefMap → Int → List DualCoverTreeMapEntry → RefMap
  | [], k, v => [(k, v)]
  | (k', v') :: rest, k, v =>
    if k < k' then (k, v) :: (k', v') :: rest
    else if k = k' then (k, v) :: rest
    else (k', v') :: mapSet rest k v

/-- Erase the bucket at a key (std::map::erase by key; keys are unique, so
removing every pair with that key removes the one bucket). -/
def mapErase : RefMap → Int → RefMap
  | [], _ => []
  | (k', v') :: rest, k => if k' = k then mapErase rest k else (k', v') :: mapErase rest k

/-- referenceMap[k].push_back e : appends to the bucket at k, inserting an
empty bucket first when the key is absent (std::map operator[] semantics). -/
def mapPush (m : RefMap) (k : Int) (e : DualCoverTreeMapEntry) : RefMap :=
  match mapFind? m k with
  | some v => mapSet m k (v ++ [e])
  | none => mapSet m k [e]

/-- Read referenceMap[k] by operator[]: returns the possibly-updated map
(an empty bucket is inserted when the key is absent) and the bucket read. -/
def mapGetInsert (m : RefMap) (k : Int) : RefMap × List DualCoverTreeMapEntry :=
  match mapFind? m k with
  | some v => (m, v)
  | none => (mapSet m k [], [])

/-- The keys of the frontier, in storage order. -/
def mapKeys (m : RefMap) : List Int := m.map Prod.fst

/-- Representation invariant of the embedded std::map: keys strictly
ascending. -/
def MapSorted (m : RefMap) : Prop := (mapKeys m).Pairwise (· < ·)

/-- The greatest bucket whose key is below the bound (below the base element
of a reverse iterator); a bound of none plays the role of end(). -/
def mapMaxBelow (m : RefMap) (bound : Option Int) : Option (Int × List DualCoverTreeMapEntry) :=
  (match bound with
   | none => m
   | some b => m.filter (fun kv => decide (kv.1 < b))).getLast?

/-- Ghost log of rule invocations: BaseCase with the two point indices,
Score and Rescore with the two nodes' representative points. -/
inductive Ev : Type where
  | bc (queryIndex referenceIndex : Nat) : Ev
  | sc (queryPoint refPoint : Nat) : Ev
  | rsc (queryPoint refPoint : Nat) : Ev
deriving DecidableEq, Repr

/-- The pluggable scoring policy (RuleType): BaseCase, Score and Rescore.
Each threads the policy's own result state of type sigma and returns the
double it computes (DBL_MAX being the prune sentinel). -/
structure Rule (σ : Type) where
  baseCase : σ → Nat → Nat → σ × DVal
  score : σ → CoverNode → CoverNode → DVal → σ × DVal
  rescore : σ → CoverNode → CoverNode → DVal → σ × DVal

/-- Traversal-side state: the rule's result state, the traverser's numPrunes
counter, and a ghost log of every rule call (observation only). -/
structure TState (σ : Type) where
  rs : σ
  numPrunes : Nat
  log : List Ev

/-- The state at the start of a traversal: numPrunes = 0, no calls yet. -/
def initState (s : σ) : TState σ := ⟨s, 0, []⟩

/-- ++numPrunes. -/
def bump (st : TState σ) : TState σ := { st with numPrunes := st.numPrunes + 1 }

/-- numPrunes += n. -/
def addPrunes (st : TState σ) (n : Nat) : TState σ :=
  { st with numPrunes := st.numPrunes + n }

/-- rule.BaseCase(queryIndex, referenceIndex), with the call logged. -/
def doBaseCase (rule : Rule σ) (st : TState σ) (queryIndex referenceIndex : Nat) :
    TState σ × DVal :=
  let p := rule.baseCase st.rs queryIndex referenceIndex
  ({ st with rs := p.1, log := st.log ++ [Ev.bc queryIndex referenceIndex] }, p.2)

/-- rule.Score(queryNode, referenceNode, baseCase), with the call logged. -/
def doScore (rule : Rule σ) (st : TState σ) (queryNode referenceNode : CoverNode)
    (baseCase : DVal) : TState σ × DVal :=
  let p := rule.score st.rs queryNode referenceNode baseCase
  ({ st with rs := p.1, log := st.log ++ [Ev.sc queryNode.point referenceNode.point] }, p.2)

/-- rule.Rescore(queryNode, referenceNode, oldScore), with the call logged. -/
def doRescore (rule : Rule σ) (st : TState σ) (queryNode referenceNode : CoverNode)
    (oldScore : DVal) : TState σ × DVal :=
  let p := rule.rescore st.rs queryNode referenceNode oldScore
  ({ st with rs := p.1, log := st.log ++ [Ev.rsc queryNode.point referenceNode.point] }, p.2)

/-- How an embedded traversal step can fail: out of fuel, dereferencing an
iterator of an empty map (or decrementing begin()), or accessing Child(i) of
a node without children. The last two are undefined behaviour in the C++. -/
inductive Err : Type where
  | fuel : Err
  | emptyDeref : Err
  | childOOB : Err
deriving DecidableEq, Repr

/-- Stable insertion of a frame into a score-sorted vector. -/
def insertFrame (e : DualCoverTreeMapEntry) :
    List DualCoverTreeMapEntry → List DualCoverTreeMapEntry
  | [] => [e]
  | x :: xs => if DVal.lt e.score x.score then e :: x :: xs else x :: insertFrame e xs

/-- std::sort(scaleVector.begin(), scaleVector.end()) using MapEntry's
operator< (ascending score). -/
def sortFrames : List DualCoverTreeMapEntry → List DualCoverTreeMapEntry
  | [] => []
  | x :: xs => insertFrame x (sortFrames xs)

/-- ReferenceRecursion, expansion of the non-self children of refNode
(lines 479-525): each child j >= 1 gets its own fresh BaseCase against its
own point, then its own Score; pruned children count one prune each, admitted
children become new frames carrying their own baseCase and indices. -/
def expandNonSelf (rule : Rule σ) (queryNode : CoverNode) :
    List CoverNode → TState σ → TState σ × List DualCoverTreeMapEntry
  | [], st => (st, [])
  | c :: cs, st =>
    let queryIndex := queryNode.point
    let refIndex := c.point
    let pb := doBaseCase rule st queryIndex refIndex
    let ps := doScore rule pb.1 queryNode c pb.2
    if ps.2 = DVal.dblMax then expandNonSelf rule queryNode cs (bump ps.1)
    else
      let pr := expandNonSelf rule queryNode cs ps.1
      (pr.1, { referenceNode := c, score := ps.2, referenceIndex := refIndex,
               queryIndex := queryIndex, baseCase := pb.2 } :: pr.2)

/-- ReferenceRecursion, expansion of a non-pruned frame's children
(lines 459-525): the self-child (child 0) is scored with the inherited
baseCase and admitted without a BaseCase call; then the non-self children are
expanded. Returns the updated state and the list of admitted frames, in
admission order (the caller pushes them into the frontier, keyed by each
frame's node scale, exactly as the C++ push_back calls do). -/
def expandChildren (rule : Rule σ) (queryNode refNode c0 : CoverNode)
    (rest : List CoverNode) (baseCase : DVal) (st : TState σ) :
    TState σ × List DualCoverTreeMapEntry :=
  let ps := doScore rule st queryNode c0 baseCase
  let selfPart : TState σ × List DualCoverTreeMapEntry :=
    if ps.2 = DVal.dblMax then (bump ps.1, [])
    else
      (ps.1, [{ referenceNode := c0, score := ps.2, referenceIndex := refNode.point,
                queryIndex := queryNode.point, baseCase := baseCase }])
  let pr := expandNonSelf rule queryNode rest selfPart.1
  (pr.1, selfPart.2 ++ pr.2)

/-- ReferenceRecursion, body of the per-frame loop (lines 407-526): Rescore
the frame (prune: ++numPrunes and skip); recompute the base case unless it
was cached for exactly this (reference point, query point) pair; Score with
the base case (prune: numPrunes += NumChildren, all-or-nothing for children);
otherwise expand the children into the frontier. Child(0) of a childless
node is out-of-bounds in the C++ and surfaces as an error. -/
def processFrame (rule : Rule σ) (queryNode : CoverNode) (m : RefMap) (st : TState σ)
    (frame : DualCoverTreeMapEntry) : Except Err (RefMap × TState σ) :=
  let refNode := frame.referenceNode
  let score := frame.score
  let refIndex := frame.referenceIndex
  let refPoint := refNode.point
  let queryIndex := frame.queryIndex
  let queryPoint := queryNode.point
  let pr := doRescore rule st queryNode refNode score
  if pr.2 = DVal.dblMax then .ok (m, bump pr.1)
  else
    let pb :=
      if refPoint ≠ refIndex ∨ queryPoint ≠ queryIndex then
        doBaseCase rule pr.1 queryPoint refPoint
      else (pr.1, frame.baseCase)
    let ps := doScore rule pb.1 queryNode refNode pb.2
    if ps.2 = DVal.dblMax then .ok (m, addPrunes ps.1 refNode.children.length)
    else
      match refNode.children with
      | [] => .error .childOOB
      | c0 :: rest =>
        let pe := expandChildren rule queryNode refNode c0 rest pb.2 ps.1
        .ok (pe.2.foldl (fun mm f => mapPush mm f.referenceNode.scale f) m, pe.1)

/-- ReferenceRecursion, iteration over the vector of the current largest
scale by index (the C++ re-reads scaleVector.at(i) against the live bucket,
which pushes may extend). -/
def processScaleGo (rule : Rule σ) : Nat → CoverNode → Int → Nat → RefMap → TState σ →
    Except Err (RefMap × TState σ)
  | 0, _, _, _, _, _ => .error .fuel
  | fuel+1, queryNode, k, i, m, st =>
    match mapFind? m k with
    | none => .ok (m, st)
    | some vec =>
      if h : i < vec.length then
        match processFrame rule queryNode m st (vec.get ⟨i, h⟩) with
        | .error e => .error e
        | .ok (m', st') => processScaleGo rule fuel queryNode k (i+1) m' st'
      else .ok (m, st)

/-- ReferenceRecursion, treatment of one maximal scale: sort its vector by
score, then process every frame. -/
def processScale (rule : Rule σ) (fuel : Nat) (queryNode : CoverNode) (k : Int)
    (m : RefMap) (st : TState σ) : Except Err (RefMap × TState σ) :=
  let m' :=
    match mapFind? m k with
    | some vec => mapSet m k (sortFrames vec)
    | none => m
  processScaleGo rule fuel queryNode k 0 m' st

/-- DualTreeTraverser::ReferenceRecursion (lines 379-532): while the maximum
scale in the frontier is above the query node's scale (with the double
INT_MIN break), process and then erase the current maximum scale. The while
condition dereferences referenceMap.rbegin(), which for an empty map is
undefined behaviour, surfaced as the emptyDeref error. -/
def referenceRecursion (rule : Rule σ) : Nat → CoverNode → RefMap → TState σ →
    Except Err (RefMap × TState σ)
  | 0, _, _, _ => .error .fuel
  | fuel+1, queryNode, m, st =>
    match m.getLast? with
    | none => .error .emptyDeref
    | some kv =>
      if kv.1 > queryNode.scale then
        if queryNode.scale = INT_MIN ∧ kv.1 = INT_MIN then .ok (m, st)
        else
          match processScale rule fuel queryNode kv.1 m st with
          | .error e => .error e
          | .ok (m', st') =>
            match m'.getLast? with
            | none => .error .emptyDeref
            | some kv' => referenceRecursion rule fuel queryNode (mapErase m' kv'.1) st'
      else .ok (m, st)

/-- PruneMap, filtering of one scale vector for a candidate query child
(lines 207-267): Rescore each frame against the child (prune: ++numPrunes);
else a fresh BaseCase for (child point, reference point) and a fresh Score
(prune: ++numPrunes); surviving frames get the new score, base case and both
indices set to the child's point and the reference node's point. -/
def filterFrames (rule : Rule σ) (candidateQueryNode : CoverNode) :
    List DualCoverTreeMapEntry → TState σ → TState σ × List DualCoverTreeMapEntry
  | [], st => (st, [])
  | frame :: fs, st =>
    let refNode := frame.referenceNode
    let oldScore := frame.score
    let pr := doRescore rule st candidateQueryNode refNode oldScore
    if pr.2 = DVal.dblMax then filterFrames rule candidateQueryNode fs (bump pr.1)
    else
      let pb := doBaseCase rule pr.1 candidateQueryNode.point refNode.point
      let ps := doScore rule pb.1 candidateQueryNode refNode pb.2
      if ps.2 = DVal.dblMax then filterFrames rule candidateQueryNode fs (bump ps.1)
      else
        let rest := filterFrames rule candidateQueryNode fs ps.1
        (rest.1,
         { frame with score := ps.2, baseCase := pb.2,
                      referenceIndex := refNode.point,
                      queryIndex := candidateQueryNode.point } :: rest.2)

/-- PruneMap, loop over the scale buckets from the coarsest downwards,
stopping at the INT_MIN bucket (lines 194-274). The reverse iteration never
mutates the parent map, so it is a plain walk of the buckets in descending
key order; the childMap key is created first (the reserve call creates
childMap[thisScale]) and struck again when the filtered vector is empty. -/
def pruneMapLoop (rule : Rule σ) (candidateQueryNode : CoverNode) :
    List (Int × List DualCoverTreeMapEntry) → RefMap → TState σ → RefMap × TState σ
  | [], childMap, st => (childMap, st)
  | (thisScale, scaleVector) :: restBuckets, childMap, st =>
    if thisScale = INT_MIN then (childMap, st)
    else
      let childMap1 := mapSet childMap thisScale []
      let pf := filterFrames rule candidateQueryNode scaleVector st
      let childMap2 :=
        if pf.2.isEmpty then mapErase childMap1 thisScale
        else mapSet childMap1 thisScale pf.2
      pruneMapLoop rule candidateQueryNode restBuckets childMap2 pf.1

/-- DualTreeTraverser::PruneMap (lines 175-277): builds the candidate query
child's frontier from the parent frontier. Returns the parent map after the
call (the final childMap[INT_MIN] = referenceMap[INT_MIN] statement inserts
an empty leaf bucket into the PARENT map when the key is absent — std::map
operator[] semantics), the child map, and the state. The queryNode parameter
is unused in the C++ body as well. -/
def pruneMap (rule : Rule σ) (_queryNode candidateQueryNode : CoverNode)
    (referenceMap : RefMap) (st : TState σ) : RefMap × RefMap × TState σ :=
  if referenceMap.isEmpty then (referenceMap, [], st)
  else
    let pl := pruneMapLoop rule candidateQueryNode referenceMap.reverse [] st
    let gi := mapGetInsert referenceMap INT_MIN
    (gi.1, mapSet pl.1 INT_MIN gi.2, pl.2)

/-- PruneMapForSelfChild, filtering of one scale vector for the self-child
(lines 311-365): when the frame's cached (referenceIndex, queryIndex) does
not match the current pair, Rescore (prune: ++numPrunes) and then a fresh
BaseCase; otherwise the cached base case is reused with no calls. Either way
Score decides survival, and survivors get updated score, base case and
indices. -/
def filterFramesSelf (rule : Rule σ) (candidateQueryNode : CoverNode) :
    List DualCoverTreeMapEntry → TState σ → TState σ × List DualCoverTreeMapEntry
  | [], st => (st, [])
  | frame :: fs, st =>
    let refNode := frame.referenceNode
    let oldScore := frame.score
    let queryIndex := frame.queryIndex
    let refIndex := frame.referenceIndex
    if refIndex ≠ refNode.point ∨ queryIndex ≠ candidateQueryNode.point then
      let pr := doRescore rule st candidateQueryNode refNode oldScore
      if pr.2 = DVal.dblMax then filterFramesSelf rule candidateQueryNode fs (bump pr.1)
      else
        let pb := doBaseCase rule pr.1 candidateQueryNode.point refNode.point
        let ps := doScore rule pb.1 candidateQueryNode refNode pb.2
        if ps.2 = DVal.dblMax then filterFramesSelf rule candidateQueryNode fs (bump ps.1)
        else
          let rest := filterFramesSelf rule candidateQueryNode fs ps.1
          (rest.1,
           { frame with score := ps.2, baseCase := pb.2,
                        queryIndex := candidateQueryNode.point,
                        referenceIndex := refNode.point } :: rest.2)
    else
      let ps := doScore rule st candidateQueryNode refNode frame.baseCase
      if ps.2 = DVal.dblMax then filterFramesSelf rule candidateQueryNode fs (bump ps.1)
      else
        let rest := filterFramesSelf rule candidateQueryNode fs ps.1
        (rest.1,
         { frame with score := ps.2, baseCase := frame.baseCase,
                      queryIndex := candidateQueryNode.point,
                      referenceIndex := refNode.point } :: rest.2)

/-- PruneMapForSelfChild, the reverse-iterator loop (lines 299-376), embedded
with explicit std::reverse_iterator semantics. The iterator is represented by
the key of its base element (none = end()); dereferencing yields the greatest
key below the base, it == rend() holds exactly when the base element is
begin(), and ++it recomputes the predecessor of the base in the CURRENT map.
Consequently, erasing the bucket the iterator points to makes the subsequent
++it land one bucket further down (the C++ skips a bucket), and when no key
remains below the base, ++it decrements begin() — undefined behaviour,
surfaced as emptyDeref. -/
def pmscLoop (rule : Rule σ) : Nat → CoverNode → RefMap → Option Int → TState σ →
    Except Err (RefMap × TState σ)
  | 0, _, _, _, _ => .error .fuel
  | fuel+1, candidateQueryNode, m, base, st =>
    let atEnd : Bool :=
      match base with
      | none => m.isEmpty
      | some b => (m.head?.map Prod.fst) == some b
    if atEnd then .ok (m, st)
    else
      match mapMaxBelow m base with
      | none => .error .emptyDeref
      | some kv =>
        if kv.1 = INT_MIN then .ok (m, st)
        else
          let pf := filterFramesSelf rule candidateQueryNode kv.2 st
          let m1 := mapSet m kv.1 pf.2
          if pf.2.isEmpty then
            let m2 := mapErase m1 kv.1
            if m2.isEmpty then .ok (m2, pf.1)
            else
              match mapMaxBelow m2 base with
              | none => .error .emptyDeref
              | some kv' => pmscLoop rule fuel candidateQueryNode m2 (some kv'.1) pf.1
          else
            match mapMaxBelow m1 base with
            | none => .error .emptyDeref
            | some kv' => pmscLoop rule fuel candidateQueryNode m1 (some kv'.1) pf.1

/-- DualTreeTraverser::PruneMapForSelfChild (lines 279-377): filters the
frontier in place for the self-child. -/
def pruneMapForSelfChild (rule : Rule σ) (fuel : Nat) (candidateQueryNode : CoverNode)
    (referenceMap : RefMap) (st : TState σ) : Except Err (RefMap × TState σ) :=
  if referenceMap.isEmpty then .ok (referenceMap, st)
  else pmscLoop rule fuel candidateQueryNode referenceMap none st

/-- Traverse, one step of the leaf/base-case loop (lines 134-172): skip the
frame with ++numPrunes when the cached indices already equal the current
(reference point, query point); otherwise Rescore (prune: ++numPrunes) and,
when not pruned, perform the base case for the pair. -/
def leafStep (rule : Rule σ) (queryNode : CoverNode) (st : TState σ)
    (frame : DualCoverTreeMapEntry) : TState σ :=
  let refNode := frame.referenceNode
  let oldScore := frame.score
  let refIndex := frame.referenceIndex
  let queryIndex := frame.queryIndex
  if refIndex = refNode.point ∧ queryIndex = queryNode.point then bump st
  else
    let pr := doRescore rule st queryNode refNode oldScore
    if pr.2 = DVal.dblMax then bump pr.1
    else (doBaseCase rule pr.1 queryNode.point refNode.point).1

/-- Traverse, the loop over the non-self query children (lines 103-113):
each child gets its frontier from PruneMap (whose side effect on the parent
map is threaded through) and is traversed with it. The traversal of a child
is passed in as tm, instantiated with the fueled recursive call. -/
def traverseChildren (rule : Rule σ)
    (tm : CoverNode → RefMap → TState σ → Except Err (TState σ))
    (queryNode : CoverNode) :
    List CoverNode → RefMap → TState σ → Except Err (RefMap × TState σ)
  | [], m, st => .ok (m, st)
  | c :: cs, m, st =>
    let pm := pruneMap rule queryNode c m st
    match tm c pm.2.1 pm.2.2 with
    | .error e => .error e
    | .ok st' => traverseChildren rule tm queryNode cs pm.1 st'

/-- DualTreeTraverser::Traverse(queryNode, referenceMap) (lines 74-173):
empty-frontier check, ReferenceRecursion, query descent (non-self children
with PruneMap copies, then the self-child with the in-place
PruneMapForSelfChild), early return at non-leaf scope, and the leaf
base-case loop at leaf scope. Reading rbegin() or begin() of an empty map
surfaces as emptyDeref; Child(0) of a childless query node as childOOB. -/
def traverseMapGo (rule : Rule σ) : Nat → CoverNode → RefMap → TState σ →
    Except Err (TState σ) :=
  fun fuel queryNode referenceMap st =>
  if referenceMap.isEmpty then .ok st
  else
    match fuel with
    | 0 => .error .fuel
    | fuel+1 =>
      match referenceRecursion rule fuel queryNode referenceMap st with
      | .error e => .error e
      | .ok (m, st) =>
        if queryNode.scale = INT_MIN then
          match m.head? with
          | none => .error .emptyDeref
          | some kv => .ok (kv.2.foldl (leafStep rule queryNode) st)
        else
          match m.getLast? with
          | none => .error .emptyDeref
          | some kv =>
            if queryNode.scale ≥ kv.1 then
              match traverseChildren rule (traverseMapGo rule fuel) queryNode
                  (queryNode.children.drop 1) m st with
              | .error e => .error e
              | .ok (m', st') =>
                match queryNode.children.head? with
                | none => .error .childOOB
                | some c0 =>
                  match pruneMapForSelfChild rule fuel c0 m' st' with
                  | .error e => .error e
                  | .ok (m'', st'') => traverseMapGo rule fuel c0 m'' st''
            else .ok st

/-- DualTreeTraverser::Traverse(queryNode, referenceNode) (lines 46-72): the
root reference entry gets score 0 (must recurse into) and the base case of
the two roots' points, and is pushed at the reference root's scale. -/
def traverse (rule : Rule σ) (fuel : Nat) (queryNode referenceNode : CoverNode)
    (st : TState σ) : Except Err (TState σ) :=
  let pb := doBaseCase rule st queryNode.point referenceNode.point
  let rootRefEntry : DualCoverTreeMapEntry :=
    { referenceNode := referenceNode, score := DVal.fin 0,
      referenceIndex := referenceNode.point, queryIndex := queryNode.point,
      baseCase := pb.2 }
  traverseMapGo rule fuel queryNode (mapPush [] referenceNode.scale rootRefEntry) pb.1

/-- RangeSearch::Search, the naive branch (range_search_impl.hpp lines
184-190): for all (query i, reference j) pairs call rules.BaseCase(i, j). -/
def naiveSearch (rule : Rule σ) (nQueries nReferences : Nat) (s : σ) : σ :=
  (List.range nQueries).foldl
    (fun acc i =>
      (List.range nReferences).foldl (fun acc2 j => (rule.baseCase acc2 i j).1) acc)
    s

/-- The error kinds the spec assigns to the orchestrator. -/
inductive RSError : Type where
  | outOfRange : RSError
  | invalidConfig : RSError
deriving DecidableEq, Repr

/-- The flags a RangeSearch object records (range_search.hpp members set by
the constructors). -/
structure RangeSearchState : Type where
  treeOwner : Bool
  hasQuerySet : Bool
  naive : Bool
  singleMode : Bool
  numPrunes : Nat
deriving DecidableEq, Repr

/-- RangeSearch::RangeSearch (range_search_impl.hpp lines 19-54, the
(referenceSet, querySet, naive, singleMode, leafSize, metric) constructor):
initialises the members — naive overrides single mode, trees are owned
exactly when built — and builds trees when not naive. The leaf size is
passed through to tree construction; no validation of it is performed
anywhere in the constructor, so construction never fails. -/
def rangeSearchCtor (naive singleMode : Bool) (_leafSize : Nat) :
    Except RSError RangeSearchState :=
  .ok { treeOwner := !naive, hasQuerySet := true, naive := naive,
        singleMode := !naive && singleMode, numPrunes := 0 }

/-! Concrete scoring policies and trees used to instantiate the claims. -/

/-- A scoring policy that never prunes: every base case and score is 0 and
Rescore returns the old score (all finite). Any policy is admissible for the
universally-quantified claims; this one exercises the full traversal. -/
def noPruneRule : Rule Unit :=
  { baseCase := fun s _ _ => (s, DVal.fin 0),
    score := fun s _ _ _ => (s, DVal.fin 0),
    rescore := fun s _ _ old => (s, old) }

/-- A scoring policy whose Rescore always prunes. -/
def rescorePruneRule : Rule Unit :=
  { baseCase := fun s _ _ => (s, DVal.fin 0),
    score := fun s _ _ _ => (s, DVal.fin 0),
    rescore := fun s _ _ _ => (s, DVal.dblMax) }

/-- A scoring policy whose Score always prunes but whose Rescore passes. -/
def pruneScoreRule : Rule Unit :=
  { baseCase := fun s _ _ => (s, DVal.fin 0),
    score := fun s _ _ _ => (s, DVal.dblMax),
    rescore := fun s _ _ _ => (s, DVal.fin 0) }

/-- A scoring policy that prunes exactly the reference nodes of scale 5 and
rescores everything else to 7; used to watch which buckets
PruneMapForSelfChild actually visits. -/
def scale5PruneRule : Rule Unit :=
  { baseCase := fun s _ _ => (s, DVal.fin 0),
    score := fun s _ rn _ =>
      (s, if rn.scale = 5 then DVal.dblMax else DVal.fin 7),
    rescore := fun s _ _ old => (s, old) }

mutual
/-- All point indices in a subtree. -/
def treePoints : CoverNode → List Nat
  | .node p _ cs => p :: treePointsList cs
/-- All point indices in a forest. -/
def treePointsList : List CoverNode → List Nat
  | [] => []
  | c :: cs => treePoints c ++ treePointsList cs
end

/-- One-dimensional coordinates of the query points of the range-search
scenario: the single query point sits at 100. -/
def qpos : Nat → Int := fun _ => 100

/-- One-dimensional coordinates of the reference points: point j sits at j. -/
def rpos : Nat → Int := fun j => (j : Int)

/-- The exact minimum pairwise distance between the points of two subtrees
(an exact oracle, so pruning on it satisfies the scoring-policy contract). -/
def minPairDist (qn rn : CoverNode) : Nat :=
  ((treePoints qn).flatMap
    (fun a => (treePoints rn).map (fun b => (qpos a - rpos b).natAbs))).foldl
    Nat.min 1000000

/-- A range-search scoring policy for the range [0, 1] over qpos/rpos:
BaseCase records the pair when its distance lies in the range and returns the
distance; Score prunes exactly when even the closest pair of the two subtrees
is out of range (exact, hence contract-satisfying); Rescore returns the old
score, as the mlpack range-search rules do. -/
def rangeRule : Rule (List (Nat × Nat)) :=
  { baseCase := fun s i j =>
      (if (qpos i - rpos j).natAbs ≤ 1 then s ++ [(i, j)] else s,
       DVal.fin ((qpos i - rpos j).natAbs : Int)),
    score := fun s qn rn _ =>
      (s, if 1 < minPairDist qn rn then DVal.dblMax else DVal.fin 0),
    rescore := fun s _ _ old => (s, old) }

/-- A single-point cover tree: one leaf at scale INT_MIN. -/
def leafTree : CoverNode := .node 0 INT_MIN []

/-- A two-point reference cover tree: root at point 0, scale 1, with the
self-child (point 0) and the point-1 child as leaves. -/
def twoPointTree : CoverNode :=
  .node 0 1 [.node 0 INT_MIN [], .node 1 INT_MIN []]

/-- The number of BaseCase events in a log. -/
def bcCount (log : List Ev) : Nat :=
  log.countP fun e => match e with | .bc _ _ => true | _ => false

/-- The number of BaseCase events for one specific pair in a log. -/
def bcPairCount (log : List Ev) (queryIndex referenceIndex : Nat) : Nat :=
  log.countP fun e => e == Ev.bc queryIndex referenceIndex

/-- A query node of scale 0 with no children, as passed to the map-based
Traverse in the C7 scenario. -/
def scale0Query : CoverNode := .node 0 0 [.node 0 INT_MIN []]

/-- A frame holding a scale-1 reference node whose cached indices match. -/
def scale1Frame : DualCoverTreeMapEntry :=
  { referenceNode := .node 5 1 [.node 5 INT_MIN []], score := DVal.fin 0,
    referenceIndex := 5, queryIndex := 0, baseCase := DVal.fin 0 }

/-- A frame at a given scale with matching cached indices (reference node of
point 10 + k at scale k), with score 0; used for the PruneMapForSelfChild
iteration scenario. -/
def frameAt (k : Int) (p : Nat) : DualCoverTreeMapEntry :=
  { referenceNode := .node p k [], score := DVal.fin 0,
    referenceIndex := p, queryIndex := 0, baseCase := DVal.fin 0 }

/-- The four-bucket frontier of the PruneMapForSelfChild scenario: scales
1, 3, 9 survive filtering, scale 5 filters to empty. -/
def fourBucketMap : RefMap :=
  [(1, [frameAt 1 11]), (3, [frameAt 3 13]), (5, [frameAt 5 15]), (9, [frameAt 9 19])]

/-- The query self-child of the PruneMapForSelfChild scenario. -/
def candQuery : CoverNode := .node 0 0 []

/-- A reference node (point 4, scale 2) with a self-child and one non-self
child, for the expansion and prune-count scenarios. -/
def refNodeW : CoverNode := .node 4 2 [.node 4 1 [], .node 6 1 []]

/-- The self-child of refNodeW. -/
def c0W : CoverNode := .node 4 1 []

/-- The non-self child of refNodeW. -/
def c1W : CoverNode := .node 6 1 []

/-- A frame for refNodeW with matching cached indices. -/
def twoChildFrame : DualCoverTreeMapEntry :=
  { referenceNode := refNodeW, score := DVal.fin 0,
    referenceIndex := 4, queryIndex := 0, baseCase := DVal.fin 0 }

/-! Lemmas about the embedded std::map operations. -/

theorem mapFind?_mapSet_self (m : RefMap) (k : Int) (v : List DualCoverTreeMapEntry) :
    mapFind? (mapSet m k v) k = some v := by
  induction m with
  | nil => simp [mapSet, mapFind?]
  | cons hd tl ih =>
    by_cases h1 : k < hd.1
    · simp [mapSet, h1, mapFind?]
    · by_cases h2 : k = hd.1
      · simp [mapSet, h1, h2, mapFind?]
      · simp [mapSet, h1, h2, mapFind?, ih]

theorem mapFind?_mapSet_ne (m : RefMap) (k k' : Int) (v : List DualCoverTreeMapEntry)
    (h : k' ≠ k) : mapFind? (mapSet m k v) k' = mapFind? m k' := by
  induction m with
  | nil => simp [mapSet, mapFind?, h]
  | cons hd tl ih =>
    by_cases h1 : k < hd.1
    · simp [mapSet, h1, mapFind?, h]
    · by_cases h2 : k = hd.1
      · subst h2
        simp [mapSet, h1, mapFind?, h]
      · by_cases h3 : k' = hd.1
        · simp [mapSet, h1, h2, mapFind?, h3]
        · simp [mapSet, h1, h2, mapFind?, h3, ih]

theorem mapFind?_mapErase_self (m : RefMap) (k : Int) :
    mapFind? (mapErase m k) k = none := by
  induction m with
  | nil => simp [mapErase, mapFind?]
  | cons hd tl ih =>
    rcases hd with ⟨k', v'⟩
    by_cases h : k' = k
    · simpa [mapErase, h] using ih
    · simp [mapErase, h, mapFind?, Ne.symm h, ih]

theorem mapFind?_mapErase_ne (m : RefMap) (k k' : Int) (h : k' ≠ k) :
    mapFind? (mapErase m k) k' = mapFind? m k' := by
  induction m with
  | nil => simp [mapErase, mapFind?]
  | cons hd tl ih =>
    rcases hd with ⟨k2, v2⟩
    by_cases h1 : k2 = k
    · subst h1
      simp [mapErase, mapFind?, h, ih]
    · by_cases h2 : k' = k2
      · simp [mapErase, h1, mapFind?, h2]
      · simp [mapErase, h1, mapFind?, h2, ih]

theorem mapKeys_mapSet_mem (m : RefMap) (k : Int) (v : List DualCoverTreeMapEntry) :
    ∀ b ∈ mapKeys (mapSet m k v), b = k ∨ b ∈ mapKeys m := by
  induction m with
  | nil => simp [mapSet, mapKeys]
  | cons hd tl ih =>
    intro b hb
    by_cases h1 : k < hd.1
    · simp only [mapSet, if_pos h1, mapKeys, List.map_cons, List.mem_cons] at hb
      simp only [mapKeys, List.map_cons, List.mem_cons]
      tauto
    · by_cases h2 : k = hd.1
      · simp only [mapSet, if_neg h1, if_pos h2, mapKeys, List.map_cons,
          List.mem_cons] at hb
        simp only [mapKeys, List.map_cons, List.mem_cons]
        tauto
      · simp only [mapSet, if_neg h1, if_neg h2, mapKeys, List.map_cons,
          List.mem_cons] at hb
        simp only [mapKeys, List.map_cons, List.mem_cons]
        rcases hb with hb | hb
        · tauto
        · rcases ih b hb with hb' | hb' <;> tauto

theorem mapSorted_mapSet (m : RefMap) (k : Int) (v : List DualCoverTreeMapEntry)
    (h : MapSorted m) : MapSorted (mapSet m k v) := by
  induction m with
  | nil => simp [mapSet, MapSorted, mapKeys]
  | cons hd tl ih =>
    simp only [MapSorted, mapKeys, List.map_cons, List.pairwise_cons] at h
    by_cases h1 : k < hd.1
    · simp only [mapSet, if_pos h1, MapSorted, mapKeys, List.map_cons,
        List.pairwise_cons, List.mem_cons]
      refine ⟨?_, h.1, h.2⟩
      rintro b (rfl | hb)
      · exact h1
      · exact h1.trans (h.1 b hb)
    · by_cases h2 : k = hd.1
      · simp only [mapSet, if_neg h1, if_pos h2, MapSorted, mapKeys,
          List.map_cons, List.pairwise_cons]
        exact ⟨fun b hb => h2 ▸ h.1 b hb, h.2⟩
      · have hk : hd.1 < k := by omega
        simp only [mapSet, if_neg h1, if_neg h2, MapSorted, mapKeys,
          List.map_cons, List.pairwise_cons]
        refine ⟨?_, ih h.2⟩
        intro b hb
        rcases mapKeys_mapSet_mem tl k v b hb with rfl | hb'
        · exact hk
        · exact h.1 b hb'

theorem mapErase_sublist (m : RefMap) (k : Int) : List.Sublist (mapErase m k) m := by
  induction m with
  | nil => simp [mapErase]
  | cons hd tl ih =>
    rcases hd with ⟨k', v'⟩
    by_cases h : k' = k
    · simp only [mapErase, if_pos h]
      exact ih.cons (k', v')
    · simp only [mapErase, if_neg h]
      exact ih.cons₂ (k', v')

theorem mapSorted_mapErase (m : RefMap) (k : Int) (h : MapSorted m) :
    MapSorted (mapErase m k) := by
  exact List.Pairwise.sublist ((mapErase_sublist m k).map Prod.fst) h

theorem mapSorted_mapPush (m : RefMap) (k : Int) (e : DualCoverTreeMapEntry)
    (h : MapSorted m) : MapSorted (mapPush m k e) := by
  unfold mapPush
  cases mapFind? m k with
  | none => exact mapSorted_mapSet m k _ h
  | some v => exact mapSorted_mapSet m k _ h

theorem getLast?_mem_of_eq {α : Type} : ∀ (l : List α) (a : α), l.getLast? = some a → a ∈ l
  | [], _, h => by simp at h
  | [x], a, h => by
    simp only [List.getLast?_singleton, Option.some.injEq] at h
    simp [h]
  | x :: y :: t, a, h => by
    rw [List.getLast?_cons_cons] at h
    exact List.mem_cons_of_mem x (getLast?_mem_of_eq (y :: t) a h)

theorem mapSorted_le_getLast (m : RefMap) (kv : Int × List DualCoverTreeMapEntry) :
    MapSorted m → m.getLast? = some kv → ∀ x ∈ m, x.1 ≤ kv.1 := by
  induction m with
  | nil => intro _ hl; simp at hl
  | cons hd tl ih =>
    intro h hl
    cases tl with
    | nil =>
      simp only [List.getLast?_singleton, Option.some.injEq] at hl
      subst hl
      simp
    | cons hd2 tl2 =>
      rw [List.getLast?_cons_cons] at hl
      simp only [MapSorted, mapKeys, List.map_cons, List.pairwise_cons] at h
      have hmem : kv ∈ hd2 :: tl2 := getLast?_mem_of_eq (hd2 :: tl2) kv hl
      have htl : MapSorted (hd2 :: tl2) := by
        simpa [MapSorted, mapKeys] using h.2
      intro x hx
      rcases List.mem_cons.mp hx with rfl | hx'
      · exact le_of_lt (h.1 kv.1 (List.mem_map_of_mem Prod.fst hmem))
      · exact ih htl hl x hx'

@[simp] theorem bump_log (st : TState σ) : (bump st).log = st.log := rfl

@[simp] theorem bump_rs (st : TState σ) : (bump st).rs = st.rs := rfl

@[simp] theorem doBaseCase_fst_log (rule : Rule σ) (st : TState σ) (i j : Nat) :
    (doBaseCase rule st i j).1.log = st.log ++ [Ev.bc i j] := rfl

@[simp] theorem doScore_fst_log (rule : Rule σ) (st : TState σ) (qn rn : CoverNode)
    (b : DVal) : (doScore rule st qn rn b).1.log = st.log ++ [Ev.sc qn.point rn.point] := rfl

@[simp] theorem doRescore_fst_log (rule : Rule σ) (st : TState σ) (qn rn : CoverNode)
    (b : DVal) : (doRescore rule st qn rn b).1.log = st.log ++ [Ev.rsc qn.point rn.point] := rfl

/-- The state coming out of the non-self-child expansion has seen exactly one
fresh BaseCase and one Score per non-self child, in child order. -/
theorem expandNonSelf_log (rule : Rule σ) (queryNode : CoverNode) :
    ∀ (cs : List CoverNode) (st : TState σ),
      (expandNonSelf rule queryNode cs st).1.log =
        st.log ++ cs.flatMap (fun c =>
          [Ev.bc queryNode.point c.point, Ev.sc queryNode.point c.point]) := by
  intro cs
  induction cs with
  | nil => intro st; simp [expandNonSelf]
  | cons c cs ih =>
    intro st
    simp only [expandNonSelf]
    split
    · simp [ih, List.append_assoc]
    · simp [ih, List.append_assoc]

/-- Sortedness is preserved by folding admitted frames into the frontier. -/
theorem mapSorted_foldl_push (frames : List DualCoverTreeMapEntry) :
    ∀ m : RefMap, MapSorted m →
      MapSorted (frames.foldl (fun mm f => mapPush mm f.referenceNode.scale f) m) := by
  induction frames with
  | nil => intro m h; exact h
  | cons f fs ih => intro m h; exact ih _ (mapSorted_mapPush _ _ _ h)

/-- processFrame only adds buckets through push, so it preserves sortedness. -/
theorem processFrame_sorted (rule : Rule σ) (q : CoverNode) (m : RefMap) (st : TState σ)
    (f : DualCoverTreeMapEntry) (m' : RefMap) (st' : TState σ)
    (hs : MapSorted m) (h : processFrame rule q m st f = .ok (m', st')) :
    MapSorted m' := by
  unfold processFrame at h
  dsimp only at h
  repeat' split at h
  all_goals
    first
    | (simp only [Except.ok.injEq, Prod.mk.injEq] at h
       exact h.1 ▸ hs)
    | (simp only [Except.ok.injEq, Prod.mk.injEq] at h
       exact h.1 ▸ mapSorted_foldl_push _ _ hs)
    | exact Except.noConfusion h

/-- The per-scale frame loop preserves sortedness. -/
theorem processScaleGo_sorted (rule : Rule σ) (q : CoverNode) (k : Int) :
    ∀ (fuel i : Nat) (m : RefMap) (st : TState σ) (m' : RefMap) (st' : TState σ),
      MapSorted m → processScaleGo rule fuel q k i m st = .ok (m', st') →
      MapSorted m' := by
  intro fuel
  induction fuel with
  | zero =>
    intro i m st m' st' _ h
    exact absurd h (by simp [processScaleGo])
  | succ fuel ih =>
    intro i m st m' st' hs h
    rw [processScaleGo] at h
    rcases hf : mapFind? m k with _ | vec
    · rw [hf] at h
      dsimp only at h
      simp only [Except.ok.injEq, Prod.mk.injEq] at h
      exact h.1 ▸ hs
    · rw [hf] at h
      dsimp only at h
      by_cases hi : i < vec.length
      · rw [dif_pos hi] at h
        rcases hpf : processFrame rule q m st (vec.get ⟨i, hi⟩) with e | ⟨m2, st2⟩
        · rw [hpf] at h
          exact Except.noConfusion h
        · rw [hpf] at h
          dsimp only at h
          exact ih _ _ _ _ _ (processFrame_sorted _ _ _ _ _ _ _ hs hpf) h
      · rw [dif_neg hi] at h
        simp only [Except.ok.injEq, Prod.mk.injEq] at h
        exact h.1 ▸ hs

/-- processScale (sort the bucket, then walk it) preserves sortedness. -/
theorem processScale_sorted (rule : Rule σ) (fuel : Nat) (q : CoverNode) (k : Int)
    (m : RefMap) (st : TState σ) (m' : RefMap) (st' : TState σ)
    (hs : MapSorted m) (h : processScale rule fuel q k m st = .ok (m', st')) :
    MapSorted m' := by
  unfold processScale at h
  split at h
  · exact processScaleGo_sorted _ _ _ _ _ _ _ _ _ (mapSorted_mapSet _ _ _ hs) h
  · exact processScaleGo_sorted _ _ _ _ _ _ _ _ _ hs h

/-- C2, amended: when ReferenceRecursion returns normally, every scale key
left in the frontier is either INT_MIN or LESS than or equal to the query
node's scale (the loop reduces the maximum frontier scale down to the query
scale; the spec stated the inequality in the opposite direction). -/
theorem c2_reference_recursion_scale_bound (rule : Rule σ) (queryNode : CoverNode) :
    ∀ (fuel : Nat) (m : RefMap) (st : TState σ) (m' : RefMap) (st' : TState σ),
      MapSorted m →
      referenceRecursion rule fuel queryNode m st = .ok (m', st') →
      ∀ kv ∈ m', kv.1 = INT_MIN ∨ kv.1 ≤ queryNode.scale := by
  intro fuel
  induction fuel with
  | zero =>
    intro m st m' st' _ h
    exact absurd h (by simp [referenceRecursion])
  | succ fuel ih =>
    intro m st m' st' hs h
    rw [referenceRecursion] at h
    rcases hl : m.getLast? with _ | kv
    · rw [hl] at h
      exact absurd h (by simp)
    · rw [hl] at h
      dsimp only at h
      by_cases hgt : kv.1 > queryNode.scale
      · rw [if_pos hgt] at h
        by_cases hbrk : queryNode.scale = INT_MIN ∧ kv.1 = INT_MIN
        · obtain ⟨h1, h2⟩ := hbrk
          have : kv.1 = queryNode.scale := h2.trans h1.symm
          omega
        · rw [if_neg hbrk] at h
          rcases hps : processScale rule fuel queryNode kv.1 m st with e | ⟨m1, st1⟩
          · rw [hps] at h
            exact absurd h (by simp)
          · rw [hps] at h
            dsimp only at h
            rcases hl2 : m1.getLast? with _ | kv2
            · rw [hl2] at h
              exact absurd h (by simp)
            · rw [hl2] at h
              dsimp only at h
              have hm1 : MapSorted m1 :=
                processScale_sorted rule fuel queryNode kv.1 m st m1 st1 hs hps
              exact ih (mapErase m1 kv2.1) st1 m' st'
                (mapSorted_mapErase _ _ hm1) h
      · rw [if_neg hgt] at h
        simp only [Except.ok.injEq, Prod.mk.injEq] at h
        intro x hx
        right
        have hle : x.1 ≤ kv.1 := mapSorted_le_getLast m kv hs hl x (h.1 ▸ hx)
        omega

/-- C2-amended witness: the amended bound instantiated at the concrete
frontier with the single scale-2 bucket and a query node of scale 3. -/
theorem c2_reference_recursion_scale_bound_witness :
    (2 : Int) = INT_MIN ∨ (2 : Int) ≤ (3 : Int) := by
  have h := c2_reference_recursion_scale_bound noPruneRule (CoverNode.node 0 3 []) 5
    [(2, [frameAt 2 12])] (initState ()) [(2, [frameAt 2 12])] (initState ())
    (by simp [MapSorted, mapKeys]) rfl (2, [frameAt 2 12]) (by simp)
  exact h

/-- C1: the claim says naive, single-tree and dual-tree modes produce
identical per-query result sets for every contract-satisfying scoring policy.
The code violates this: for the query point at coordinate 100, reference
points at 0 and 1 and the range [0, 1] (scored by the exact subtree oracle of
rangeRule, which therefore satisfies the contract), the naive mode of
RangeSearch::Search produces the empty result set, while the dual-tree
traversal prunes the root reference frame's children, erases the only scale
bucket, and then dereferences rbegin() of the now-empty reference frontier in
ReferenceRecursion's while condition — undefined behaviour instead of a
result set. -/
theorem c1_naive_vs_dual_divergence :
    naiveSearch rangeRule 1 2 [] = [] ∧
    traverse rangeRule 10 leafTree twoPointTree (initState []) = .error Err.emptyDeref :=
  ⟨rfl, rfl⟩

/-- C2, counterexample: a Traverse invocation whose query node has scale 3
and whose frontier holds the single scale-2 bucket. ReferenceRecursion
returns at once (2 > 3 fails), leaving the key 2, which is neither INT_MIN
nor greater than or equal to the query scale 3. -/
theorem c2_counterexample :
    referenceRecursion noPruneRule 5 (CoverNode.node 0 3 []) [(2, [frameAt 2 12])]
        (initState ()) = .ok ([(2, [frameAt 2 12])], initState ()) ∧
    ¬((2 : Int) = INT_MIN ∨ (3 : Int) ≤ (2 : Int)) :=
  ⟨rfl, by decide⟩

/-- C3, counterexample: for the two-point query and reference trees and a
policy that never prunes, the completed dual-tree traversal performs 4
BaseCase evaluations and accumulates numPrunes = 4 (the four leaf-phase
dedup skips each count as a prune), so base cases + numPrunes = 8, not
|Q| * |R| = 4. -/
theorem c3_counterexample :
    (traverse noPruneRule 20 twoPointTree twoPointTree (initState ())).map
        (fun s => bcCount s.log + s.numPrunes) = .ok 8 ∧ 2 * 2 ≠ 8 :=
  ⟨rfl, by decide⟩

/-- C4, counterexample: running the dual-tree traversal twice on the same
single-point tree pair invokes BaseCase for the leaf pair (0, 0) twice — the
dedup rule lives in the per-traversal frame cache and does not persist
across runs, so the claimed at-most-once bound fails for two runs. -/
theorem c4_counterexample :
    ((traverse noPruneRule 6 leafTree leafTree (initState ())).bind
        (fun st1 => traverse noPruneRule 6 leafTree leafTree st1)).map
        (fun s => bcPairCount s.log 0 0) = .ok 2 ∧ ¬(2 ≤ 1) :=
  ⟨rfl, by decide⟩

/-- C5, counterexample: called with a nonempty parent frontier that has no
leaf-sentinel bucket, PruneMap's final childMap[INT_MIN] = referenceMap[INT_MIN]
statement inserts an empty INT_MIN bucket into the PARENT frontier (std::map
operator[] semantics), so the parent frontier is not left unchanged. -/
theorem c5_counterexample :
    mapFind? (pruneMap noPruneRule candQuery candQuery [(2, [frameAt 2 12])]
        (initState ())).1 INT_MIN = some [] ∧
    mapFind? [((2 : Int), [frameAt 2 12])] INT_MIN = none ∧
    (pruneMap noPruneRule candQuery candQuery [(2, [frameAt 2 12])]
        (initState ())).1 ≠ [(2, [frameAt 2 12])] := by
  refine ⟨rfl, rfl, fun h => ?_⟩
  have h1 : mapFind? (pruneMap noPruneRule candQuery candQuery
      [(2, [frameAt 2 12])] (initState ())).1 INT_MIN = some [] := rfl
  rw [h] at h1
  have h2 : mapFind? [((2 : Int), [frameAt 2 12])] INT_MIN = none := rfl
  rw [h2] at h1
  exact Option.noConfusion h1

/-- C7: the claim says the frontier accesses never dereference an end
iterator. The code violates it: with a policy whose Rescore prunes the only
frame, ReferenceRecursion prunes it, erases its bucket, and the while
condition then dereferences rbegin() of the empty map (line 392), surfaced
here as the emptyDeref error. -/
theorem c7_empty_map_deref :
    traverseMapGo rescorePruneRule 10 scale0Query [(1, [scale1Frame])] (initState ())
      = .error Err.emptyDeref :=
  rfl

/-- C8: the claim says PruneMapForSelfChild processes every scale bucket
exactly once. The code violates it: on the frontier with buckets at scales
1, 3, 5, 9 (frames with matching cached indices) and a policy that prunes
exactly scale 5, the buckets 9, 5 and 1 are visited (three Score events, for
reference points 19, 15, 11), bucket 5 is erased — and the reverse-iterator
increment after the erase skips bucket 3 entirely: its frame keeps its stale
score 0 and its node (point 13) is never scored. -/
theorem c8_erase_skips_bucket :
    (pruneMapForSelfChild scale5PruneRule 16 candQuery fourBucketMap (initState ())).map
        (fun r => (mapKeys r.1, mapFind? r.1 3, r.2.numPrunes, r.2.log))
      = .ok ([1, 3, 9], some [frameAt 3 13], 1,
          [Ev.sc 0 19, Ev.sc 0 15, Ev.sc 0 11]) ∧
    Ev.sc 0 13 ∉ [Ev.sc 0 19, Ev.sc 0 15, Ev.sc 0 11] :=
  ⟨rfl, by decide⟩

/-- C9: if the reference frontier passed to the map-based Traverse has no
entries, Traverse returns immediately: the state (including the prune counter
and the log of BaseCase/Score/Rescore calls) is returned untouched, and the
query subtree is not visited. -/
theorem c9_empty_frontier_returns :
    ∀ (σ : Type) (rule : Rule σ) (fuel : Nat) (queryNode : CoverNode) (st : TState σ),
      traverseMapGo rule fuel queryNode [] st = .ok st := by
  intro σ rule fuel queryNode st
  rw [traverseMapGo.eq_def]
  rfl

/-- C10, counterexample: the claim says construction fails with an
out-of-range error for a zero (or negative) leaf size. The constructor
performs no such check: with leaf size 0 it succeeds, initialising the
members exactly as for any other leaf size. -/
theorem c10_counterexample :
    rangeSearchCtor false false 0 = .ok (RangeSearchState.mk true true false false 0) ∧
    (rangeSearchCtor false false 0).isOk = true :=
  ⟨rfl, rfl⟩

/-- C10, amended: the RangeSearch constructor performs no validation of the
leaf size at all — construction succeeds for every leaf size, including
zero (and a negative leaf size cannot even be supplied, the parameter being
unsigned). -/
theorem c10_no_leaf_size_validation :
    ∀ (naive singleMode : Bool) (leafSize : Nat),
      ∃ s, rangeSearchCtor naive singleMode leafSize = .ok s :=
  fun _ _ _ => ⟨_, rfl⟩

/-- C6: during ReferenceRecursion's expansion of a non-pruned frame the rule
call sequence is exactly one Score for the self-child — no BaseCase, it
inherits the frame's baseCase — followed by, for each non-self child in
order, one fresh BaseCase against that child's own representative point and
one Score (so each non-self child is pruned or admitted independently); and
when the self-child is admitted it is the first admitted frame, carrying the
inherited baseCase, the parent's reference point and the query point. -/
theorem c6_expansion_call_pattern (rule : Rule σ) (queryNode refNode c0 : CoverNode)
    (rest : List CoverNode) (baseCase : DVal) (st : TState σ) :
    ((expandChildren rule queryNode refNode c0 rest baseCase st).1.log
        = st.log ++ Ev.sc queryNode.point c0.point ::
            rest.flatMap (fun c => [Ev.bc queryNode.point c.point,
                                    Ev.sc queryNode.point c.point])) ∧
    ((rule.score st.rs queryNode c0 baseCase).2 ≠ DVal.dblMax →
      (expandChildren rule queryNode refNode c0 rest baseCase st).2.head? =
        some { referenceNode := c0, score := (rule.score st.rs queryNode c0 baseCase).2,
               referenceIndex := refNode.point, queryIndex := queryNode.point,
               baseCase := baseCase }) := by
  constructor
  · simp only [expandChildren]
    split
    · rw [expandNonSelf_log]
      simp [List.append_assoc]
    · rw [expandNonSelf_log]
      simp [List.append_assoc]
  · intro hns
    have hns' : (doScore rule st queryNode c0 baseCase).2 ≠ DVal.dblMax := hns
    simp only [expandChildren]
    rw [if_neg hns']
    rfl

/-- C6 witness: the expansion of refNodeW at the concrete query, with cached
base case 5: the self-child is admitted first, inheriting base case 5 and the
parent's reference point 4. -/
theorem c6_expansion_call_pattern_witness :
    (expandChildren noPruneRule candQuery refNodeW c0W [c1W] (DVal.fin 5)
        (initState ())).2.head? =
      some { referenceNode := c0W, score := DVal.fin 0, referenceIndex := 4,
             queryIndex := 0, baseCase := DVal.fin 5 } :=
  (c6_expansion_call_pattern noPruneRule candQuery refNodeW c0W [c1W] (DVal.fin 5)
    (initState ())).2 (by decide)

/-- C3, amended: numPrunes is a diagnostic counter, not a pair count. When a
frame passes Rescore, reuses its cached base case and is then pruned by
Score, ReferenceRecursion increments numPrunes by exactly the reference
node's child count (not by the number of (query, reference) pairs the pruned
subtrees cover), performs no BaseCase call, and leaves the frontier
untouched; consequently base cases + numPrunes need not equal the number of
pairs (see the counterexample). -/
theorem processFrame_child_count_prune (rule : Rule σ) (queryNode : CoverNode)
    (m : RefMap) (st : TState σ) (frame : DualCoverTreeMapEntry)
    (hresc : (rule.rescore st.rs queryNode frame.referenceNode frame.score).2 ≠ DVal.dblMax)
    (hri : frame.referenceNode.point = frame.referenceIndex)
    (hqi : queryNode.point = frame.queryIndex)
    (hsc : (rule.score (rule.rescore st.rs queryNode frame.referenceNode frame.score).1
        queryNode frame.referenceNode frame.baseCase).2 = DVal.dblMax) :
    processFrame rule queryNode m st frame = .ok (m,
      { rs := (rule.score (rule.rescore st.rs queryNode frame.referenceNode frame.score).1
            queryNode frame.referenceNode frame.baseCase).1,
        numPrunes := st.numPrunes + frame.referenceNode.children.length,
        log := st.log ++ [Ev.rsc queryNode.point frame.referenceNode.point,
                          Ev.sc queryNode.point frame.referenceNode.point] }) := by
  have hmm : ¬(frame.referenceNode.point ≠ frame.referenceIndex ∨
      queryNode.point ≠ frame.queryIndex) := by
    push_neg
    exact ⟨hri, hqi⟩
  have hresc' : ¬((doRescore rule st queryNode frame.referenceNode frame.score).2
      = DVal.dblMax) := hresc
  unfold processFrame
  dsimp only
  rw [if_neg hresc', if_neg hmm]
  have hsc' : (doScore rule ((doRescore rule st queryNode frame.referenceNode
      frame.score).1, frame.baseCase).1 queryNode frame.referenceNode
      ((doRescore rule st queryNode frame.referenceNode frame.score).1,
        frame.baseCase).2).2 = DVal.dblMax := hsc
  rw [if_pos hsc']
  simp [doRescore, doScore, addPrunes, List.append_assoc]

/-- C3-amended witness: the always-pruning-Score policy on the two-child
reference frame: numPrunes grows by exactly 2 (the child count), with one
Rescore and one Score event and no BaseCase. -/
theorem processFrame_child_count_prune_witness :
    processFrame pruneScoreRule candQuery [] (initState ()) twoChildFrame =
      .ok ([], { rs := (), numPrunes := 2, log := [Ev.rsc 0 4, Ev.sc 0 4] }) :=
  processFrame_child_count_prune pruneScoreRule candQuery [] (initState ())
    twoChildFrame (by decide) rfl rfl (by decide)

/-- C4, amended: the leaf-phase per-frame behaviour of Traverse — a frame
whose cached (referenceIndex, queryIndex) equals the current (reference
point, query point) is skipped with numPrunes incremented and no rule call
at all (bump changes only the counter); otherwise Rescore runs first, and
when it does not prune, BaseCase is performed for the pair. The dedup cache
lives in the frames of one traversal, so a second traversal on the same tree
pair repeats BaseCase calls (see the counterexample). -/
theorem leafStep_dedup (rule : Rule σ) (queryNode : CoverNode) (st : TState σ)
    (frame : DualCoverTreeMapEntry) :
    (frame.referenceIndex = frame.referenceNode.point ∧ frame.queryIndex = queryNode.point →
      leafStep rule queryNode st frame = bump st) ∧
    (¬(frame.referenceIndex = frame.referenceNode.point ∧
        frame.queryIndex = queryNode.point) →
      (rule.rescore st.rs queryNode frame.referenceNode frame.score).2 ≠ DVal.dblMax →
      leafStep rule queryNode st frame =
        (doBaseCase rule (doRescore rule st queryNode frame.referenceNode frame.score).1
          queryNode.point frame.referenceNode.point).1) := by
  constructor
  · intro h
    unfold leafStep
    dsimp only
    rw [if_pos h]
  · intro h hresc
    have hresc' : ¬((doRescore rule st queryNode frame.referenceNode frame.score).2
        = DVal.dblMax) := hresc
    unfold leafStep
    dsimp only
    rw [if_neg h, if_neg hresc']

/-- C4-amended witness: the dedup branch at a concrete matching frame: the
frame is skipped with only the prune counter bumped. -/
theorem leafStep_dedup_witness :
    leafStep noPruneRule candQuery (initState ()) (frameAt 2 12) = bump (initState ()) :=
  (leafStep_dedup noPruneRule candQuery (initState ()) (frameAt 2 12)).1 ⟨rfl, rfl⟩

/-- The child-map accumulator of PruneMap never keeps an empty non-leaf
bucket: a bucket whose filtered vector is empty is struck from the child map. -/
theorem pruneMapLoop_no_empty (rule : Rule σ) (cand : CoverNode) :
    ∀ (bs : List (Int × List DualCoverTreeMapEntry)) (acc : RefMap) (st : TState σ),
      (∀ k, k ≠ INT_MIN → mapFind? acc k ≠ some []) →
      ∀ k, k ≠ INT_MIN →
        mapFind? (pruneMapLoop rule cand bs acc st).1 k ≠ some [] := by
  intro bs
  induction bs with
  | nil =>
    intro acc st hacc k hk
    exact hacc k hk
  | cons b bs ih =>
    intro acc st hacc k hk
    rcases b with ⟨thisScale, scaleVector⟩
    by_cases hts : thisScale = INT_MIN
    · simp only [pruneMapLoop]
      rw [if_pos hts]
      exact hacc k hk
    · simp only [pruneMapLoop]
      rw [if_neg hts]
      refine ih _ _ ?_ k hk
      intro k2 hk2
      by_cases hke : k2 = thisScale
      · subst hke
        split
        · rw [mapFind?_mapErase_self]
          simp
        · rename_i hemp
          rw [mapFind?_mapSet_self]
          intro hcon
          apply hemp
          injection hcon with hcon2
          simp [hcon2]
      · split
        · rw [mapFind?_mapErase_ne _ _ _ hke, mapFind?_mapSet_ne _ _ _ _ hke]
          exact hacc k2 hk2
        · rw [mapFind?_mapSet_ne _ _ _ _ hke, mapFind?_mapSet_ne _ _ _ _ hke]
          exact hacc k2 hk2

/-- C5, amended: for a nonempty parent frontier, PruneMap leaves the parent
unchanged when it already holds a leaf-sentinel bucket, but inserts an empty
INT_MIN bucket into the parent otherwise (the operator[] side effect of
childMap[INT_MIN] = referenceMap[INT_MIN]); the leaf bucket read from the
parent is carried into the child frontier unchanged; and no non-leaf bucket
of the child frontier is empty (empty filtered buckets are omitted). -/
theorem c5_prune_map_effect (rule : Rule σ) (qn cand : CoverNode) (m : RefMap)
    (st : TState σ) (hne : m.isEmpty = false) :
    (∀ v, mapFind? m INT_MIN = some v →
        (pruneMap rule qn cand m st).1 = m ∧
        mapFind? (pruneMap rule qn cand m st).2.1 INT_MIN = some v) ∧
    (mapFind? m INT_MIN = none →
        (pruneMap rule qn cand m st).1 = mapSet m INT_MIN [] ∧
        mapFind? (pruneMap rule qn cand m st).2.1 INT_MIN = some []) ∧
    (∀ k, k ≠ INT_MIN → mapFind? (pruneMap rule qn cand m st).2.1 k ≠ some []) := by
  refine ⟨?_, ?_, ?_⟩
  · intro v hv
    constructor
    · simp [pruneMap, hne, mapGetInsert, hv]
    · simp [pruneMap, hne, mapGetInsert, hv, mapFind?_mapSet_self]
  · intro hv
    constructor
    · simp [pruneMap, hne, mapGetInsert, hv]
    · simp [pruneMap, hne, mapGetInsert, hv, mapFind?_mapSet_self]
  · intro k hk
    simp only [pruneMap, hne, Bool.false_eq_true, if_false]
    rw [mapFind?_mapSet_ne _ _ _ _ hk]
    apply pruneMapLoop_no_empty rule cand m.reverse [] st ?_ k hk
    intro k2 _
    simp [mapFind?]

/-- C5-amended witness: with a leaf bucket present, the parent frontier is
returned unchanged. -/
theorem c5_prune_map_effect_witness :
    (pruneMap noPruneRule candQuery candQuery [(INT_MIN, []), (2, [frameAt 2 12])]
        (initState ())).1 = [(INT_MIN, []), (2, [frameAt 2 12])] :=
  ((c5_prune_map_effect noPruneRule candQuery candQuery
      [(INT_MIN, []), (2, [frameAt 2 12])] (initState ()) rfl).1 [] rfl).1

end MlpackCover
